import Mathlib

/-!
Verification of the keepass-rs XML block decoder (`src/xml_parse.rs`).

The Rust source is shallowly embedded below: the event-driven state machine of
`parse_xml_block` becomes a step function over an explicit parser state, and
`parse_xml_timestamp` becomes a total Lean function whose result type records
the three possible Rust outcomes (normal return, propagated error, panic).

External crates used by the source (base64, chrono, the std UTF-8 validator)
are modelled by concrete executable Lean functions, documented at each
definition.  The domain structs (Group, Entry, Metadata, ...) live in the
repository's `db.rs`, which is not part of the sources at hand; they are
modelled from the specification's data-model section.
-/

namespace KeepassXml

/-- Error kinds propagated by the decoder: base64 decode failure, inner cipher
failure, and invalid UTF-8 in decrypted bytes (the variants of the crate's
error type that this module can produce). -/
inductive PError where
  | base64
  | cipher
  | utf8
  deriving Repr, DecidableEq

/-- Outcome of running a piece of Rust code: a normal value, a propagated
`Err`, or a panic (abnormal termination, e.g. an out-of-bounds slice). -/
inductive POut (α : Type) where
  | ok (v : α)
  | err (e : PError)
  | abort
  deriving Repr, DecidableEq

end KeepassXml

namespace KeepassXml

/-- Model of `char::to_lowercase` as used by the source on attribute values:
ASCII uppercase letters are lowered; other characters kept.  (Full Unicode
lowercasing of `str::to_lowercase` is outside the modelled character range.) -/
def asciiLowerChar (c : Char) : Char :=
  if 'A' ≤ c ∧ c ≤ 'Z' then Char.ofNat (c.toNat + 32) else c

/-- Model of `str::to_lowercase` (ASCII range). -/
def asciiLower (s : String) : String :=
  String.mk (s.toList.map asciiLowerChar)

/-- Model of Rust `str::parse::<bool>`: only the exact strings "true" and
"false" parse. -/
def parseRustBool (s : String) : Option Bool :=
  if s = "true" then some true
  else if s = "false" then some false
  else none

/-- Model of Rust `str::parse::<u8>`: optional leading '+', one or more ASCII
digits, value at most 255 (overflow is a parse error). -/
def parseU8 (s : String) : Option Nat :=
  let cs := s.toList
  let ds := match cs with
            | '+' :: rest => rest
            | _ => cs
  if ds.isEmpty then none
  else if ds.all Char.isDigit then
    let v := ds.foldl (fun a c => a * 10 + (c.toNat - 48)) 0
    if v ≤ 255 then some v else none
  else none

/-- Value of one character of the standard base64 alphabet. -/
def b64Val (c : Char) : Option Nat :=
  if 'A' ≤ c ∧ c ≤ 'Z' then some (c.toNat - 65)
  else if 'a' ≤ c ∧ c ≤ 'z' then some (c.toNat - 71)
  else if '0' ≤ c ∧ c ≤ '9' then some (c.toNat + 4)
  else if c = '+' then some 62
  else if c = '/' then some 63
  else none

/-- Convert a list of base64 sextets to bytes.  A trailing chunk of one sextet
is invalid; chunks of two or three sextets produce one or two bytes. -/
def sextetsToBytes : List Nat → Option (List Nat)
  | [] => some []
  | [_] => none
  | [a, b] => some [a * 4 + b / 16]
  | [a, b, c] => some [a * 4 + b / 16, (b % 16) * 16 + c / 4]
  | a :: b :: c :: d :: rest =>
    match sextetsToBytes rest with
    | some t => some ((a * 4 + b / 16) :: ((b % 16) * 16 + c / 4) :: ((c % 4) * 64 + d) :: t)
    | none => none

/-- Map base64 characters to their sextet values, failing on any character
outside the alphabet. -/
def mapB64 : List Char → Option (List Nat)
  | [] => some []
  | c :: rest =>
    match b64Val c, mapB64 rest with
    | some v, some vs => some (v :: vs)
    | _, _ => none

/-- Model of `base64::decode` (standard alphabet, as invoked by the source):
optional trailing '=' padding of at most two characters (padded input must
have length divisible by four), every other character drawn from the standard
alphabet, and a final chunk of one sextet rejected as invalid length. -/
def b64Decode (s : String) : Option (List Nat) :=
  let cs := s.toList
  let pads := (cs.reverse.takeWhile (fun c => c == '=')).length
  let body := cs.take (cs.length - pads)
  if 2 < pads then none
  else if 0 < pads ∧ cs.length % 4 ≠ 0 then none
  else
    match mapB64 body with
    | some sx => sextetsToBytes sx
    | none => none

/-- Little-endian unsigned value of a byte list. -/
def leU64 : List Nat → Nat
  | [] => 0
  | b :: rest => b + 256 * leU64 rest

/-- Model of `i64::from_le_bytes`: little-endian unsigned value, reinterpreted
as a signed 64-bit integer. -/
def i64FromLeBytes (bs : List Nat) : Int :=
  let u := leU64 bs
  if u < 2 ^ 63 then (u : Int) else (u : Int) - 2 ^ 64

/-- Model of `std::str::from_utf8` validity (the source only uses the decoded
bytes again, so validity is all that matters): strict UTF-8 — no overlong
encodings, no surrogates, no code points above 0x10FFFF. -/
def utf8Valid : List Nat → Bool
  | [] => true
  | b :: rest =>
    if b < 0x80 then utf8Valid rest
    else if b < 0xC2 then false
    else if b < 0xE0 then
      match rest with
      | c1 :: r =>
        if 0x80 ≤ c1 ∧ c1 ≤ 0xBF then utf8Valid r else false
      | [] => false
    else if b < 0xF0 then
      match rest with
      | c1 :: c2 :: r =>
        let lo := if b = 0xE0 then 0xA0 else 0x80
        let hi := if b = 0xED then 0x9F else 0xBF
        if lo ≤ c1 ∧ c1 ≤ hi ∧ 0x80 ≤ c2 ∧ c2 ≤ 0xBF then utf8Valid r else false
      | _ => false
    else if b < 0xF5 then
      match rest with
      | c1 :: c2 :: c3 :: r =>
        let lo := if b = 0xF0 then 0x90 else 0x80
        let hi := if b = 0xF4 then 0x8F else 0xBF
        if lo ≤ c1 ∧ c1 ≤ hi ∧ 0x80 ≤ c2 ∧ c2 ≤ 0xBF ∧ 0x80 ≤ c3 ∧ c3 ≤ 0xBF then
          utf8Valid r
        else false
      | _ => false
    else false

end KeepassXml

namespace KeepassXml

/-- Proleptic-Gregorian leap year. -/
def isLeapYear (y : Int) : Bool :=
  (y % 4 == 0 && y % 100 != 0) || y % 400 == 0

/-- Days in a month of the proleptic Gregorian calendar. -/
def daysInMonth (y m : Int) : Int :=
  if m = 2 then (if isLeapYear y then 29 else 28)
  else if m = 4 ∨ m = 6 ∨ m = 9 ∨ m = 11 then 30
  else 31

/-- Days since 1970-01-01 of a proleptic Gregorian date (the standard civil
calendar day-count computation; divisions truncate toward zero, matching the
ranges used here after era adjustment). -/
def daysFromCivil (y m d : Int) : Int :=
  let yA := if m ≤ 2 then y - 1 else y
  let era := (if 0 ≤ yA then yA else yA - 399) / 400
  let yoe := yA - era * 400
  let mp := (m + 9) % 12
  let doy := (153 * mp + 2) / 5 + d - 1
  let doe := yoe * 365 + yoe / 4 - yoe / 100 + doy
  era * 146097 + doe - 719468

/-- Seconds elapsed from 0001-01-01T00:00:00 to the given calendar date-time.
The model represents a chrono `NaiveDateTime` by this count, under which
chrono's addition of `Duration::seconds` is integer addition. -/
def secondsSince0001 (y mo d h mi s : Nat) : Int :=
  (daysFromCivil y mo d - daysFromCivil 1 1 1) * 86400
    + ((h * 3600 + mi * 60 + s : Nat) : Int)

/-- Value of one ASCII digit. -/
def digitVal (c : Char) : Option Nat :=
  if '0' ≤ c ∧ c ≤ '9' then some (c.toNat - 48) else none

/-- Two-digit number. -/
def num2 (a b : Char) : Option Nat :=
  match digitVal a, digitVal b with
  | some x, some y => some (10 * x + y)
  | _, _ => none

/-- Four-digit number. -/
def num4 (a b c d : Char) : Option Nat :=
  match digitVal a, digitVal b, digitVal c, digitVal d with
  | some x, some y, some z, some w => some (1000 * x + 100 * y + 10 * z + w)
  | _, _, _, _ => none

/-- Calendar validity of parsed date-time components, as checked by chrono's
date and time constructors (leap seconds outside the modelled range). -/
def validDateTime (y mo d h mi s : Nat) : Bool :=
  1 ≤ mo && mo ≤ 12 && 1 ≤ d && ((d : Int) ≤ daysInMonth y mo)
    && h ≤ 23 && mi ≤ 59 && s ≤ 59

/-- Model of `chrono::NaiveDateTime::parse_from_str t "%Y-%m-%dT%H:%M:%SZ"`
(external chrono crate): the exact 20-character form with a 4-digit year and
a literal trailing 'Z'; signed or extended years and leap seconds are outside
the modelled range. -/
def parseIso (t : String) : Option Int :=
  match t.toList with
  | [y1, y2, y3, y4, '-', a1, a2, '-', b1, b2, 'T',
     h1, h2, ':', i1, i2, ':', s1, s2, 'Z'] =>
    match num4 y1 y2 y3 y4, num2 a1 a2, num2 b1 b2,
          num2 h1 h2, num2 i1 i2, num2 s1 s2 with
    | some y, some mo, some d, some h, some mi, some s =>
      if validDateTime y mo d h mi s then some (secondsSince0001 y mo d h mi s)
      else none
    | _, _, _, _, _, _ => none
  | _ => none

/-- Model of the same chrono parse with format "%Y-%m-%dT%H:%M:%S" (no
trailing 'Z'), used by the source only on the constant epoch string. -/
def parseIsoNoZ (t : String) : Option Int :=
  match t.toList with
  | [y1, y2, y3, y4, '-', a1, a2, '-', b1, b2, 'T',
     h1, h2, ':', i1, i2, ':', s1, s2] =>
    match num4 y1 y2 y3 y4, num2 a1 a2, num2 b1 b2,
          num2 h1 h2, num2 i1 i2, num2 s1 s2 with
    | some y, some mo, some d, some h, some mi, some s =>
      if validDateTime y mo d h mi s then some (secondsSince0001 y mo d h mi s)
      else none
    | _, _, _, _, _, _ => none
  | _ => none

/-- The constant epoch parse of the source's base64 branch
(`parse_from_str "0001-01-01T00:00:00" "%Y-%m-%dT%H:%M:%S"`). -/
def kdbxEpoch : Option Int := parseIsoNoZ "0001-01-01T00:00:00"

/-- The earliest instant chrono can represent (-262144-01-01T00:00:00, the
start of `NaiveDate`'s minimum year, which is `i32::MIN >> 13`), in seconds
since 0001-01-01T00:00:00. -/
def chronoMinSecs : Int :=
  (daysFromCivil (-262144) 1 1 - daysFromCivil 1 1 1) * 86400

/-- The latest whole-second instant chrono can represent
(262143-12-31T23:59:59, the end of `NaiveDate`'s maximum year, which is
`i32::MAX >> 13`), in seconds since 0001-01-01T00:00:00. -/
def chronoMaxSecs : Int :=
  (daysFromCivil 262144 1 1 - daysFromCivil 1 1 1) * 86400 - 1

/-- Translation of `parse_xml_timestamp` (src/xml_parse.rs lines 25-43).
First the ISO-8601 fixed-format parse; on failure, base64-decode ('?'
propagates a decode error), then copy the first 8 decoded bytes — the slice
`v[0..8]` panics when fewer than 8 bytes were decoded, modelled by `.abort` —
and add them, as a signed little-endian integer of seconds, to the epoch
0001-01-01T00:00:00 (whose inline parse is `.unwrap()`ed in the source:
failure there would also panic).  The addition itself can panic in the
source: `chrono::Duration::seconds` is bounded by `i64::MAX` milliseconds,
and `NaiveDateTime + Duration` panics whenever the result leaves chrono's
calendar range (years -262144 to 262143).  Relative to the year-1 epoch,
every result inside the calendar range is far inside the `Duration` bound,
so a single range check on the resulting instant models both panics,
`.abort` outside it. -/
def parse_xml_timestamp (t : String) : POut Int :=
  match parseIso t with
  | some ndt => .ok ndt
  | none =>
    match b64Decode t with
    | none => .err .base64
    | some v =>
      if v.length < 8 then .abort
      else
        match kdbxEpoch with
        | some e =>
          if chronoMinSecs ≤ e + i64FromLeBytes (v.take 8)
              ∧ e + i64FromLeBytes (v.take 8) ≤ chronoMaxSecs then
            .ok (e + i64FromLeBytes (v.take 8))
          else .abort
        | none => .abort

end KeepassXml

namespace KeepassXml

/-- Modelled from the spec: the `Value` tagged union of `db.rs` (not among the
sources at hand) — Unprotected text, Protected secret bytes, and Bytes (never
constructed by this decoder).  A Protected value stores the decrypted bytes
(`SecStr::from` of the UTF-8-validated plaintext keeps exactly those bytes). -/
inductive Value where
  | Unprotected (s : String)
  | Protected (bytes : List Nat)
  | Bytes (b : List Nat)
  deriving Repr, DecidableEq

/-- Modelled from the spec: the `Icon` union of `db.rs` — a numeric icon id
(a `u8` in the source, defaulting to 0) or a custom-icon UUID reference. -/
inductive Icon where
  | IconID (n : Nat)
  | CustomIcon (uuid : String)
  deriving Repr, DecidableEq

/-- Modelled from the spec: an AutoType association (optional target-window
pattern, optional keystroke sequence). -/
structure AutoTypeAssociation where
  window : Option String := none
  sequence : Option String := none
  deriving Repr, DecidableEq

/-- Modelled from the spec: AutoType configuration (enabled flag, optional
sequence, ordered association list). -/
structure AutoType where
  enabled : Bool := false
  sequence : Option String := none
  associations : List AutoTypeAssociation := []
  deriving Repr, DecidableEq

/-- Modelled from the spec: the string-keyed mappings of `db.rs` (hash maps
with last-write-wins insertion), represented as association lists whose
insert removes any previous binding of the key and appends the new one. -/
def insertSL {α : Type} (k : String) (v : α) (m : List (String × α)) :
    List (String × α) :=
  m.filter (fun p => p.1 != k) ++ [(k, v)]

/-- Lookup in the association-list map representation. -/
def lookupSL {α : Type} (k : String) (m : List (String × α)) : Option α :=
  (m.find? (fun p => p.1 == k)).map (fun p => p.2)

/-- Modelled from the spec: an Entry — field mapping, named timestamps
(seconds since 0001-01-01), optional AutoType, expires flag, icon. -/
structure Entry where
  fields : List (String × Value) := []
  autotype : Option AutoType := none
  times : List (String × Int) := []
  expires : Bool := false
  icon : Icon := .IconID 0
  deriving Repr, DecidableEq

/-- Modelled from the spec: Metadata — generator, database name and
description, and the custom-icon mapping (uuid to data, last write wins). -/
structure Metadata where
  generator : String := ""
  name : String := ""
  description : String := ""
  custom_icons : List (String × String) := []
  deriving Repr, DecidableEq

mutual

/-- Modelled from the spec: a finished child of a Group (`crate::Node`):
either a sub-Group or an Entry, in document order. -/
inductive DBNode where
  | group (g : Group)
  | entry (e : Entry)

/-- Modelled from the spec: a Group — name, ordered children, named
timestamps, expires flag, icon. -/
inductive Group where
  | mk (name : String) (children : List DBNode) (times : List (String × Int))
       (expires : Bool) (icon : Icon)

end

/-- The default-initialized Group (`Default::default()`). -/
def Group.default : Group := .mk "" [] [] false (.IconID 0)

/-- Group name accessor. -/
def Group.name : Group → String
  | .mk n _ _ _ _ => n

/-- Group children accessor. -/
def Group.children : Group → List DBNode
  | .mk _ c _ _ _ => c

/-- Group timestamps accessor. -/
def Group.times : Group → List (String × Int)
  | .mk _ _ t _ _ => t

/-- Group expires accessor. -/
def Group.expires : Group → Bool
  | .mk _ _ _ e _ => e

/-- Group icon accessor. -/
def Group.icon : Group → Icon
  | .mk _ _ _ _ i => i

/-- Replace a Group's name. -/
def Group.setName : Group → String → Group
  | .mk _ c t e i, n => .mk n c t e i

/-- Append a finished child (`children.push`). -/
def Group.pushChild : Group → DBNode → Group
  | .mk n c t e i, x => .mk n (c ++ [x]) t e i

/-- Insert a named timestamp (`times.insert`). -/
def Group.insertTime : Group → String → Int → Group
  | .mk n c t e i, k, v => .mk n c (insertSL k v t) e i

/-- Replace a Group's expires flag. -/
def Group.setExpires : Group → Bool → Group
  | .mk n c t _ i, e => .mk n c t e i

/-- Replace a Group's icon. -/
def Group.setIcon : Group → Icon → Group
  | .mk n c t e _, i => .mk n c t e i

end KeepassXml

namespace KeepassXml

/-- Translation of the parser's internal `Node` enum (src/xml_parse.rs lines
11-23): in-progress entities on the builder stack. -/
inductive PNode where
  | metadata (m : Metadata)
  | entry (e : Entry)
  | group (g : Group)
  | keyValue (k : String) (v : Value)
  | autoType (a : AutoType)
  | autoTypeAssociation (a : AutoTypeAssociation)
  | expiryTime (s : String)
  | expires (b : Bool)
  | icon (i : Icon)
  | customIcon (uuid : String) (data : String)

/-- The tokenizer events consumed by `parse_xml_block` (the `xml-rs` event
stream, with the attribute list of a start element as name-value pairs and
all event kinds the source ignores collapsed into `other`).  Tokenizer
errors are outside the modelled input (the source `.unwrap()`s them). -/
inductive XmlEvent where
  | startElement (localName : String) (attributes : List (String × String))
  | endElement (localName : String)
  | characters (c : String)
  | other

/-- A stream-cipher model: a decrypt function threading an explicit keystream
state, as used through `&mut dyn Cipher` by the source. -/
def DecryptFn (σ : Type) : Type :=
  σ → List Nat → Except PError (List Nat) × σ

/-- The mutable state of one `parse_xml_block` call: the XML name stack, the
builder stack (head = top), the root group and metadata output slots, and
the cipher state. -/
structure PState (σ : Type) where
  xmlStack : List String
  parsedStack : List PNode
  rootGroup : Group
  metadata : Option Metadata
  cipher : σ

/-- The element names treated as structural by the close handler
(src/xml_parse.rs lines 111-124). -/
def recognizedNames : List String :=
  ["Meta", "Group", "Entry", "String", "AutoType", "Association",
   "ExpiryTime", "Expires", "IconID", "CustomIconUUID", "Icon"]

/-- Protection check at Value-open (src/xml_parse.rs lines 77-81): the first
attribute named "Protected", lowercased and parsed as a bool, defaulting to
false on absence or parse failure. -/
def protAttrTrue (attrs : List (String × String)) : Bool :=
  match attrs.find? (fun p => p.1 == "Protected") with
  | some p => (parseRustBool (asciiLower p.2)).getD false
  | none => false

/-- Builder-stack effect of a start element (src/xml_parse.rs lines 67-103):
recognized names push a default node of the matching variant (the source's
match on disjoint name literals, written as a first-match chain); at
"Value", when protection is requested, an already-pushed KeyValue is mutated
in place instead of pushing. -/
def startStack (localName : String) (attrs : List (String × String))
    (stk : List PNode) : List PNode :=
  if localName = "Meta" then .metadata {} :: stk
  else if localName = "Group" then .group Group.default :: stk
  else if localName = "Entry" then .entry {} :: stk
  else if localName = "String" then .keyValue "" (.Unprotected "") :: stk
  else if localName = "Value" then
    if protAttrTrue attrs then
      match stk with
      | .keyValue k _ :: rest => .keyValue k (.Protected []) :: rest
      | _ => stk
    else stk
  else if localName = "AutoType" then .autoType {} :: stk
  else if localName = "Association" then .autoTypeAssociation {} :: stk
  else if localName = "ExpiryTime" then .expiryTime "" :: stk
  else if localName = "Expires" then .expires false :: stk
  else if localName = "IconID" then .icon (.IconID 0) :: stk
  else if localName = "CustomIconUUID" then .icon (.CustomIcon "") :: stk
  else if localName = "Icon" then .customIcon "" "" :: stk
  else stk

/-- Start-element handling (src/xml_parse.rs lines 60-104): push the name on
the XML stack and apply the builder-stack effect. -/
def stepStart {σ : Type} (s : PState σ) (localName : String)
    (attrs : List (String × String)) : PState σ :=
  { s with xmlStack := localName :: s.xmlStack,
           parsedStack := startStack localName attrs s.parsedStack }

/-- Close dispatch (src/xml_parse.rs lines 129-243): link the finished node
into the new stack top according to the type-pair table; unmatched pairs
drop the node.  The result is the new builder stack, root group and metadata.
An ExpiryTime close under an Entry or Group runs the timestamp decoder,
whose panic (short base64) propagates; its `Err` is silently discarded. -/
def closeNode (finished : PNode) (rest : List PNode) (root : Group)
    (meta : Option Metadata) : POut (List PNode × Group × Option Metadata) :=
  match finished with
  | .keyValue k v =>
    match rest with
    | .entry e :: r =>
      .ok (.entry { e with fields := insertSL k v e.fields } :: r, root, meta)
    | _ => .ok (rest, root, meta)
  | .metadata m => .ok (rest, root, some m)
  | .group g =>
    match rest with
    | .group p :: r => .ok (.group (p.pushChild (.group g)) :: r, root, meta)
    | [] => .ok ([], g, meta)
    | _ => .ok (rest, root, meta)
  | .entry e =>
    match rest with
    | .group p :: r => .ok (.group (p.pushChild (.entry e)) :: r, root, meta)
    | _ => .ok (rest, root, meta)
  | .autoType a =>
    match rest with
    | .entry e :: r => .ok (.entry { e with autotype := some a } :: r, root, meta)
    | _ => .ok (rest, root, meta)
  | .autoTypeAssociation a =>
    match rest with
    | .autoType t :: r =>
      .ok (.autoType { t with associations := t.associations ++ [a] } :: r,
           root, meta)
    | _ => .ok (rest, root, meta)
  | .expiryTime et =>
    match rest with
    | .entry e :: r =>
      match parse_xml_timestamp et with
      | .ok t =>
        .ok (.entry { e with times := insertSL "ExpiryTime" t e.times } :: r,
             root, meta)
      | .err _ => .ok (rest, root, meta)
      | .abort => .abort
    | .group g :: r =>
      match parse_xml_timestamp et with
      | .ok t => .ok (.group (g.insertTime "ExpiryTime" t) :: r, root, meta)
      | .err _ => .ok (rest, root, meta)
      | .abort => .abort
    | _ => .ok (rest, root, meta)
  | .expires b =>
    match rest with
    | .entry e :: r => .ok (.entry { e with expires := b } :: r, root, meta)
    | .group g :: r => .ok (.group (g.setExpires b) :: r, root, meta)
    | _ => .ok (rest, root, meta)
  | .icon i =>
    match rest with
    | .entry e :: r => .ok (.entry { e with icon := i } :: r, root, meta)
    | .group g :: r => .ok (.group (g.setIcon i) :: r, root, meta)
    | _ => .ok (rest, root, meta)
  | .customIcon u d =>
    match rest with
    | .metadata m :: r =>
      .ok (.metadata { m with custom_icons := insertSL u d m.custom_icons } :: r,
           root, meta)
    | _ => .ok (rest, root, meta)

/-- End-element handling (src/xml_parse.rs lines 106-245): pop the XML name
stack; for recognized names, pop the finished node (`.unwrap()` panics on an
empty builder stack) and dispatch it. -/
def stepEnd {σ : Type} (s : PState σ) (localName : String) : POut (PState σ) :=
  let s := { s with xmlStack := s.xmlStack.tail }
  if recognizedNames.contains localName then
    match s.parsedStack with
    | [] => .abort
    | finished :: rest =>
      match closeNode finished rest s.rootGroup s.metadata with
      | .ok (stk, root, meta) =>
        .ok { s with parsedStack := stk, rootGroup := root, metadata := meta }
      | .err e => .err e
      | .abort => .abort
  else .ok s

/-- Character-data dispatch (src/xml_parse.rs lines 247-327), producing the
new builder stack and cipher state: route text to a field of the top node,
keyed by the pair of the innermost open element name and the top node's
type.  The source matches that pair in one table whose arms each require one
name and one node type; the arms here are grouped by node type (the pairs
are mutually exclusive, so the grouping preserves the table).  A protected
value is base64-decoded, decrypted with the injected cipher and validated as
UTF-8, each failure propagating an error; every other unparsable input is
silently defaulted, and unmatched pairs are ignored. -/
def charsOut {σ : Type} (dec : DecryptFn σ) (top : Option String)
    (stk : List PNode) (ci : σ) (c : String) : POut (List PNode × σ) :=
  match stk with
  | .group g :: r =>
    if top = some "Name" then .ok (.group (g.setName c) :: r, ci)
    else .ok (stk, ci)
  | .expiryTime _ :: r =>
    if top = some "ExpiryTime" then .ok (.expiryTime c :: r, ci)
    else .ok (stk, ci)
  | .expires _ :: r =>
    if top = some "Expires" then .ok (.expires (c == "True") :: r, ci)
    else .ok (stk, ci)
  | .keyValue k v :: r =>
    if top = some "Key" then .ok (.keyValue c v :: r, ci)
    else if top = some "Value" then
      match v with
      | .Bytes _ => .ok (stk, ci)
      | .Unprotected _ => .ok (.keyValue k (.Unprotected c) :: r, ci)
      | .Protected _ =>
        match b64Decode c with
        | none => .err .base64
        | some buf =>
          match dec ci buf with
          | (.error e, _) => .err e
          | (.ok pt, c2) =>
            if utf8Valid pt then .ok (.keyValue k (.Protected pt) :: r, c2)
            else .err .utf8
    else .ok (stk, ci)
  | .autoType a :: r =>
    if top = some "Enabled" then
      .ok (.autoType { a with enabled := (parseRustBool c).getD false } :: r, ci)
    else if top = some "DefaultSequence" then
      .ok (.autoType { a with sequence := some c } :: r, ci)
    else .ok (stk, ci)
  | .autoTypeAssociation a :: r =>
    if top = some "Window" then
      .ok (.autoTypeAssociation { a with window := some c } :: r, ci)
    else if top = some "KeystrokeSequence" then
      .ok (.autoTypeAssociation { a with sequence := some c } :: r, ci)
    else .ok (stk, ci)
  | .icon (.IconID _) :: r =>
    if top = some "IconID" then
      .ok (.icon (.IconID ((parseU8 c).getD 0)) :: r, ci)
    else .ok (stk, ci)
  | .icon (.CustomIcon _) :: r =>
    if top = some "CustomIconUUID" then .ok (.icon (.CustomIcon c) :: r, ci)
    else .ok (stk, ci)
  | .metadata m :: r =>
    if top = some "Generator" then
      .ok (.metadata { m with generator := c } :: r, ci)
    else if top = some "DatabaseName" then
      .ok (.metadata { m with name := c } :: r, ci)
    else if top = some "DatabaseDescription" then
      .ok (.metadata { m with description := c } :: r, ci)
    else .ok (stk, ci)
  | .customIcon u d :: r =>
    if top = some "UUID" then .ok (.customIcon c d :: r, ci)
    else if top = some "Data" then .ok (.customIcon u c :: r, ci)
    else .ok (stk, ci)
  | _ => .ok (stk, ci)

/-- Character-data handling: apply the dispatch to the state, threading the
new builder stack and cipher state. -/
def stepChars {σ : Type} (dec : DecryptFn σ) (s : PState σ) (c : String) :
    POut (PState σ) :=
  match charsOut dec s.xmlStack.head? s.parsedStack s.cipher c with
  | .ok (stk, c2) => .ok { s with parsedStack := stk, cipher := c2 }
  | .err e => .err e
  | .abort => .abort

/-- One iteration of the event loop of `parse_xml_block`. -/
def step {σ : Type} (dec : DecryptFn σ) (s : PState σ) :
    XmlEvent → POut (PState σ)
  | .startElement n attrs => .ok (stepStart s n attrs)
  | .endElement n => stepEnd s n
  | .characters c => stepChars dec s c
  | .other => .ok s

/-- Run the event loop over a list of events; an error or panic stops the
loop and propagates. -/
def runEvents {σ : Type} (dec : DecryptFn σ) (s : PState σ) :
    List XmlEvent → POut (PState σ)
  | [] => .ok s
  | e :: rest =>
    match step dec s e with
    | .ok s2 => runEvents dec s2 rest
    | .err er => .err er
    | .abort => .abort

/-- The initial state of a parse (src/xml_parse.rs lines 50-56). -/
def initState {σ : Type} (c0 : σ) : PState σ :=
  { xmlStack := [], parsedStack := [], rootGroup := Group.default,
    metadata := none, cipher := c0 }

/-- Translation of `parse_xml_block` (src/xml_parse.rs lines 45-334), over a
pre-tokenized event list and a stream-cipher model: fold the event handler
over the events and return the metadata and root-group slots. -/
def parse_xml_block {σ : Type} (dec : DecryptFn σ) (c0 : σ)
    (events : List XmlEvent) : POut (Option Metadata × Group) :=
  match runEvents dec (initState c0) events with
  | .ok s => .ok (s.metadata, s.rootGroup)
  | .err e => .err e
  | .abort => .abort

/-- A trivial cipher for concrete runs: identity decrypt with unit state. -/
def trivDec : DecryptFn Unit := fun u bs => (.ok bs, u)

end KeepassXml

namespace KeepassXml

/-- The linking table of the close dispatcher, as the specification states it
(its section 4.3): which finished-node/parent type-pairs produce a linkage
(or, for Metadata and a root-closing Group, an output assignment).  Pairs
outside this table are the silently-dropped ones. -/
def linkable (n : PNode) (parent : Option PNode) : Bool :=
  match n, parent with
  | .metadata _, _ => true
  | .keyValue _ _, some (.entry _) => true
  | .group _, some (.group _) => true
  | .group _, none => true
  | .entry _, some (.group _) => true
  | .autoType _, some (.entry _) => true
  | .autoTypeAssociation _, some (.autoType _) => true
  | .expiryTime _, some (.entry _) => true
  | .expiryTime _, some (.group _) => true
  | .expires _, some (.entry _) => true
  | .expires _, some (.group _) => true
  | .icon _, some (.entry _) => true
  | .icon _, some (.group _) => true
  | .customIcon _ _, some (.metadata _) => true
  | _, _ => false

/-- Input shape for the document-order claim: a properly nested tree of Group
and Entry elements (an Entry is a leaf here; KeePass entries never contain
groups). -/
inductive GTree where
  | group (children : List GTree)
  | entry

mutual

/-- The event stream of a nested Group/Entry tree in document order. -/
def treeEvents : GTree → List XmlEvent
  | .entry => [.startElement "Entry" [], .endElement "Entry"]
  | .group cs =>
    .startElement "Group" [] :: (treeEventsList cs ++ [.endElement "Group"])

/-- Concatenated event streams of a forest, in document order. -/
def treeEventsList : List GTree → List XmlEvent
  | [] => []
  | t :: ts => treeEvents t ++ treeEventsList ts

end

mutual

/-- The output node the decoder should build for one input tree: the same
shape, with default-initialized scalar fields. -/
def mirrorNode : GTree → DBNode
  | .entry => .entry {}
  | .group cs => .group (.mk "" (mirrorList cs) [] false (.IconID 0))

/-- The output children list for one input forest, in document order. -/
def mirrorList : List GTree → List DBNode
  | [] => []
  | t :: ts => mirrorNode t :: mirrorList ts

end

/-- Event stream of one String field element holding an unprotected
key/value pair. -/
def kvEvents (k v : String) : List XmlEvent :=
  [.startElement "String" [], .startElement "Key" [], .characters k,
   .endElement "Key", .startElement "Value" [], .characters v,
   .endElement "Value", .endElement "String"]

/-- Event stream of a list of String field elements. -/
def kvsEvents : List (String × String) → List XmlEvent
  | [] => []
  | p :: ps => kvEvents p.1 p.2 ++ kvsEvents ps

/-- Event stream of one custom icon (Icon element with UUID and Data) inside
Meta. -/
def iconEvents (u d : String) : List XmlEvent :=
  [.startElement "Icon" [], .startElement "UUID" [], .characters u,
   .endElement "UUID", .startElement "Data" [], .characters d,
   .endElement "Data", .endElement "Icon"]

/-- Event stream of a list of custom icons. -/
def iconsEvents : List (String × String) → List XmlEvent
  | [] => []
  | p :: ps => iconEvents p.1 p.2 ++ iconsEvents ps

/-- A document holding a single Group with a single Entry carrying the given
String fields, in document order. -/
def entryDocEvents (kvs : List (String × String)) : List XmlEvent :=
  [.startElement "X" [], .startElement "Group" [], .startElement "Entry" []]
    ++ kvsEvents kvs
    ++ [.endElement "Entry", .endElement "Group", .endElement "X"]

/-- A document holding a single Meta element carrying the given custom
icons, in document order. -/
def metaDocEvents (ics : List (String × String)) : List XmlEvent :=
  .startElement "Meta" [] :: (iconsEvents ics ++ [.endElement "Meta"])

/-- The field mapping an Entry accumulates from a list of unprotected
key/value pairs. -/
def fieldsOf (kvs : List (String × String)) : List (String × Value) :=
  kvs.foldl (fun m p => insertSL p.1 (Value.Unprotected p.2) m) []

/-- The custom-icon mapping Metadata accumulates from a list of uuid/data
pairs. -/
def iconsOf (ics : List (String × String)) : List (String × String) :=
  ics.foldl (fun m p => insertSL p.1 p.2 m) []

end KeepassXml

namespace KeepassXml

theorem runEvents_append {σ : Type} (dec : DecryptFn σ) (s : PState σ)
    (l1 l2 : List XmlEvent) :
    runEvents dec s (l1 ++ l2) =
      match runEvents dec s l1 with
      | .ok s2 => runEvents dec s2 l2
      | .err e => .err e
      | .abort => .abort := by
  induction l1 generalizing s with
  | nil => rfl
  | cons e rest ih =>
    simp only [List.cons_append, runEvents]
    cases step dec s e <;> simp [ih]

end KeepassXml

namespace KeepassXml

/-- C4: when the ISO parse fails and base64 decoding yields fewer than 8
bytes, `parse_xml_timestamp` does not return a decode error but panics (the
slice `v[0..8]` is out of bounds), so the function is total only under the
precondition that at least 8 bytes are decoded. -/
theorem c4_short_base64_panics (t : String) (v : List Nat)
    (hiso : parseIso t = none) (hb : b64Decode t = some v)
    (hlen : v.length < 8) :
    parse_xml_timestamp t = .abort := by
  simp [parse_xml_timestamp, hiso, hb, hlen]

/-- Witness for C4: "AA==" is not ISO, base64-decodes to the single byte 0,
and makes the decoder panic. -/
theorem c4_short_base64_panics_witness :
    parseIso "AA==" = none ∧ b64Decode "AA==" = some [0]
    ∧ parse_xml_timestamp "AA==" = POut.abort :=
  ⟨rfl, rfl, c4_short_base64_panics "AA==" [0] rfl rfl (by decide)⟩

end KeepassXml

namespace KeepassXml

theorem stepChars_protected_fails {σ : Type} (dec : DecryptFn σ)
    (s : PState σ) (c k : String) (b : List Nat) (r : List PNode) (e0 : PError)
    (hx : s.xmlStack.head? = some "Value")
    (hp : s.parsedStack = .keyValue k (.Protected b) :: r)
    (hfail :
      (b64Decode c = none ∧ e0 = .base64)
      ∨ (∃ buf r2, b64Decode c = some buf ∧ dec s.cipher buf = (.error e0, r2))
      ∨ (∃ buf pt c2, b64Decode c = some buf ∧ dec s.cipher buf = (.ok pt, c2)
          ∧ utf8Valid pt = false ∧ e0 = .utf8)) :
    stepChars dec s c = .err e0 := by
  rcases hfail with ⟨hb, he⟩ | ⟨buf, r2, hb, hdec⟩ | ⟨buf, pt, c2, hb, hdec, hut, he⟩
  · simp [stepChars, charsOut, hx, hp, hb, he]
  · simp [stepChars, charsOut, hx, hp, hb, hdec]
  · simp [stepChars, charsOut, hx, hp, hb, hdec, hut, he]

theorem closeNode_unlinked (n : PNode) (rest : List PNode) (root : Group)
    (meta : Option Metadata) (h : linkable n rest.head? = false) :
    closeNode n rest root meta = .ok (rest, root, meta) := by
  cases n <;> rcases rest with _ | ⟨hd, tl⟩ <;> try cases hd <;>
    simp_all [closeNode, linkable]
  all_goals simp_all [closeNode, linkable]

end KeepassXml

namespace KeepassXml

/-- C1: any failure while handling a protected value's character data —
base64 decode failure, cipher decryption failure, or decrypted bytes that
are not valid UTF-8 — aborts the entire parse: `parse_xml_block` returns
that error and no (metadata, root group) result. -/
theorem c1_protected_value_failure_aborts {σ : Type} (dec : DecryptFn σ)
    (c0 : σ) (pre rest : List XmlEvent) (c : String) (s : PState σ)
    (k : String) (b : List Nat) (r : List PNode) (e0 : PError)
    (hrun : runEvents dec (initState c0) pre = .ok s)
    (hx : s.xmlStack.head? = some "Value")
    (hp : s.parsedStack = .keyValue k (.Protected b) :: r)
    (hfail :
      (b64Decode c = none ∧ e0 = .base64)
      ∨ (∃ buf r2, b64Decode c = some buf ∧ dec s.cipher buf = (.error e0, r2))
      ∨ (∃ buf pt c2, b64Decode c = some buf ∧ dec s.cipher buf = (.ok pt, c2)
          ∧ utf8Valid pt = false ∧ e0 = .utf8)) :
    parse_xml_block dec c0 (pre ++ .characters c :: rest) = .err e0 := by
  have hstep : step dec s (.characters c) = .err e0 :=
    stepChars_protected_fails dec s c k b r e0 hx hp hfail
  unfold parse_xml_block
  rw [runEvents_append, hrun]
  simp [runEvents, hstep]

/-- Witness for C1: a document opening a protected Value whose character
data "!!!" is not base64 makes the whole parse return a decode error. -/
theorem c1_protected_value_failure_aborts_witness :
    parse_xml_block trivDec ()
      ([.startElement "Entry" [], .startElement "String" [],
        .startElement "Value" [("Protected", "True")]]
        ++ .characters "!!!" :: []) = .err .base64 :=
  c1_protected_value_failure_aborts trivDec ()
    [.startElement "Entry" [], .startElement "String" [],
     .startElement "Value" [("Protected", "True")]] [] "!!!"
    ⟨["Value", "String", "Entry"],
     [.keyValue "" (.Protected []), .entry {}], Group.default, none, ()⟩
    "" [] [.entry {}] .base64 rfl rfl rfl (Or.inl ⟨rfl, rfl⟩)

/-- Counterexample to C3 as stated: "not-a-timestamp!" is neither valid
ISO-8601 nor valid base64, yet the parse does not abort — the timestamp
error is swallowed at ExpiryTime close and `parse_xml_block` returns Ok. -/
theorem c3_counterexample :
    parseIso "not-a-timestamp!" = none
    ∧ b64Decode "not-a-timestamp!" = none
    ∧ parse_xml_block trivDec ()
        [.startElement "Entry" [], .startElement "ExpiryTime" [],
         .characters "not-a-timestamp!", .endElement "ExpiryTime",
         .endElement "Entry"] = .ok (none, Group.default) :=
  ⟨rfl, rfl, rfl⟩

/-- C3 (amended): when base64 decoding fails for a protected value, the
parse aborts immediately with a decode error and no partial result; when a
timestamp string is neither valid ISO-8601 nor valid base64,
`parse_xml_timestamp` itself returns a decode error, but `parse_xml_block`
silently discards that error at ExpiryTime close (under an Entry or a
Group) and the parse continues. -/
theorem c3_required_base64_failure_policy :
    (∀ t : String, parseIso t = none → b64Decode t = none →
      parse_xml_timestamp t = .err .base64)
    ∧ (∀ (σ : Type) (dec : DecryptFn σ) (c0 : σ) (pre rest : List XmlEvent)
        (c : String) (s : PState σ) (k : String) (b : List Nat)
        (r : List PNode),
        runEvents dec (initState c0) pre = .ok s →
        s.xmlStack.head? = some "Value" →
        s.parsedStack = .keyValue k (.Protected b) :: r →
        b64Decode c = none →
        parse_xml_block dec c0 (pre ++ .characters c :: rest) = .err .base64)
    ∧ (∀ (σ : Type) (dec : DecryptFn σ) (s : PState σ) (et : String)
        (en : Entry) (r : List PNode) (evs : List XmlEvent) (e0 : PError),
        s.parsedStack = .expiryTime et :: .entry en :: r →
        parse_xml_timestamp et = .err e0 →
        runEvents dec s (.endElement "ExpiryTime" :: evs) =
          runEvents dec
            { s with xmlStack := s.xmlStack.tail,
                     parsedStack := .entry en :: r } evs)
    ∧ (∀ (σ : Type) (dec : DecryptFn σ) (s : PState σ) (et : String)
        (g : Group) (r : List PNode) (evs : List XmlEvent) (e0 : PError),
        s.parsedStack = .expiryTime et :: .group g :: r →
        parse_xml_timestamp et = .err e0 →
        runEvents dec s (.endElement "ExpiryTime" :: evs) =
          runEvents dec
            { s with xmlStack := s.xmlStack.tail,
                     parsedStack := .group g :: r } evs) := by
  refine ⟨?_, ?_, ?_, ?_⟩
  · intro t hiso hb
    simp [parse_xml_timestamp, hiso, hb]
  · intro σ dec c0 pre rest c s k b r hrun hx hp hb
    have hstep : step dec s (.characters c) = .err .base64 :=
      stepChars_protected_fails dec s c k b r .base64 hx hp (Or.inl ⟨hb, rfl⟩)
    unfold parse_xml_block
    rw [runEvents_append, hrun]
    simp [runEvents, hstep]
  · intro σ dec s et en r evs e0 hp ht
    have hmem : "ExpiryTime" ∈ recognizedNames := by decide
    have hstep : step dec s (.endElement "ExpiryTime") =
        .ok { s with xmlStack := s.xmlStack.tail,
                     parsedStack := .entry en :: r } := by
      simp [step, stepEnd, hmem, hp, closeNode, ht]
    simp [runEvents, hstep]
  · intro σ dec s et g r evs e0 hp ht
    have hmem : "ExpiryTime" ∈ recognizedNames := by decide
    have hstep : step dec s (.endElement "ExpiryTime") =
        .ok { s with xmlStack := s.xmlStack.tail,
                     parsedStack := .group g :: r } := by
      simp [step, stepEnd, hmem, hp, closeNode, ht]
    simp [runEvents, hstep]

/-- Witness for the amended C3, each conjunct at a concrete input. -/
theorem c3_required_base64_failure_policy_witness :
    parse_xml_timestamp "!!!" = .err .base64
    ∧ parse_xml_block trivDec ()
        ([.startElement "Entry" [], .startElement "String" [],
          .startElement "Value" [("Protected", "True")]]
          ++ .characters "!!!" :: [.endElement "Value"]) = .err .base64
    ∧ runEvents trivDec
        ⟨["ExpiryTime", "Entry"], [.expiryTime "x", .entry {}],
         Group.default, none, ()⟩ [.endElement "ExpiryTime"] =
        runEvents trivDec
          ⟨["Entry"], [.entry {}], Group.default, none, ()⟩ []
    ∧ runEvents trivDec
        ⟨["ExpiryTime", "Group"], [.expiryTime "x", .group Group.default],
         Group.default, none, ()⟩ [.endElement "ExpiryTime"] =
        runEvents trivDec
          ⟨["Group"], [.group Group.default], Group.default, none, ()⟩ [] :=
  ⟨c3_required_base64_failure_policy.1 "!!!" rfl rfl,
   c3_required_base64_failure_policy.2.1 Unit trivDec ()
     [.startElement "Entry" [], .startElement "String" [],
      .startElement "Value" [("Protected", "True")]] [.endElement "Value"]
     "!!!"
     ⟨["Value", "String", "Entry"],
      [.keyValue "" (.Protected []), .entry {}], Group.default, none, ()⟩
     "" [] [.entry {}] rfl rfl rfl rfl,
   c3_required_base64_failure_policy.2.2.1 Unit trivDec
     ⟨["ExpiryTime", "Entry"], [.expiryTime "x", .entry {}],
      Group.default, none, ()⟩ "x" {} [] [] .base64 rfl rfl,
   c3_required_base64_failure_policy.2.2.2 Unit trivDec
     ⟨["ExpiryTime", "Group"], [.expiryTime "x", .group Group.default],
      Group.default, none, ()⟩ "x" Group.default [] [] .base64 rfl rfl⟩

/-- C6: a recognized element closing with a parent that is absent or of a
type outside the linking table is silently discarded — no error, nothing
else in the state changes beyond popping the two stacks, and the parse
continues with the remaining events. -/
theorem c6_mismatched_close_dropped {σ : Type} (dec : DecryptFn σ)
    (s : PState σ) (name : String) (n : PNode) (rest : List PNode)
    (evs : List XmlEvent)
    (hrec : recognizedNames.contains name = true)
    (hstk : s.parsedStack = n :: rest)
    (hnl : linkable n rest.head? = false) :
    runEvents dec s (.endElement name :: evs) =
      runEvents dec
        { s with xmlStack := s.xmlStack.tail, parsedStack := rest } evs := by
  have hclose := closeNode_unlinked n rest s.rootGroup s.metadata hnl
  have hmem : name ∈ recognizedNames := by
    have h2 := hrec
    simp [List.contains] at h2
    exact h2
  have hstep : step dec s (.endElement name) =
      .ok { s with xmlStack := s.xmlStack.tail, parsedStack := rest } := by
    simp [step, stepEnd, hmem, hstk, hclose]
  simp [runEvents, hstep]

/-- Witness for C6: a KeyValue closing while a Group (not an Entry) is below
it is dropped and the parse continues. -/
theorem c6_mismatched_close_dropped_witness :
    runEvents trivDec
      ⟨["String", "Group"],
       [.keyValue "k" (.Unprotected "v"), .group Group.default],
       Group.default, none, ()⟩ [.endElement "String"] =
      runEvents trivDec
        ⟨["Group"], [.group Group.default], Group.default, none, ()⟩ [] :=
  c6_mismatched_close_dropped trivDec
    ⟨["String", "Group"],
     [.keyValue "k" (.Unprotected "v"), .group Group.default],
     Group.default, none, ()⟩
    "String" (.keyValue "k" (.Unprotected "v")) [.group Group.default] []
    rfl rfl rfl

end KeepassXml

namespace KeepassXml

/-- C8: a KeyValue's value variant is decided exactly once, at the open of
its enclosing Value element — it becomes Protected iff a "Protected"
attribute is present and parses case-insensitively as true (defaulting to
the existing Unprotected value on absence or parse failure) — and character
data arriving afterwards only replaces the payload within the Protected
variant, never the variant itself. -/
theorem c8_value_variant_fixed_at_open :
    (∀ (σ : Type) (dec : DecryptFn σ) (s : PState σ)
      (attrs : List (String × String)) (k : String) (v : Value)
      (rest : List PNode),
      s.parsedStack = .keyValue k v :: rest →
      step dec s (.startElement "Value" attrs) =
        .ok { s with xmlStack := "Value" :: s.xmlStack,
                     parsedStack :=
                       .keyValue k (if protAttrTrue attrs then .Protected []
                                    else v) :: rest })
    ∧ (∀ (σ : Type) (dec : DecryptFn σ) (s s2 : PState σ) (k : String)
      (b : List Nat) (rest : List PNode) (c : String),
      s.parsedStack = .keyValue k (.Protected b) :: rest →
      s.xmlStack.head? = some "Value" →
      step dec s (.characters c) = .ok s2 →
      ∃ b2 c2,
        s2 = { s with parsedStack := .keyValue k (.Protected b2) :: rest,
                      cipher := c2 }) := by
  constructor
  · intro σ dec s attrs k v rest hstk
    cases hpa : protAttrTrue attrs <;>
      simp [step, stepStart, startStack, hstk, hpa]
  · intro σ dec s s2 k b rest c hstk hx hstep
    rcases hb : b64Decode c with _ | buf
    · have he : step dec s (.characters c) = .err .base64 :=
        stepChars_protected_fails dec s c k b rest .base64 hx hstk
          (Or.inl ⟨hb, rfl⟩)
      rw [he] at hstep
      simp at hstep
    · rcases hdec : dec s.cipher buf with ⟨res, c2⟩
      rcases res with e | pt
      · have he : step dec s (.characters c) = .err e :=
          stepChars_protected_fails dec s c k b rest e hx hstk
            (Or.inr (Or.inl ⟨buf, c2, hb, hdec⟩))
        rw [he] at hstep
        simp at hstep
      · rcases hut : utf8Valid pt
        · have he : step dec s (.characters c) = .err .utf8 :=
            stepChars_protected_fails dec s c k b rest .utf8 hx hstk
              (Or.inr (Or.inr ⟨buf, pt, c2, hb, hdec, hut, rfl⟩))
          rw [he] at hstep
          simp at hstep
        · have hok : step dec s (.characters c) =
              .ok { s with parsedStack := .keyValue k (.Protected pt) :: rest,
                           cipher := c2 } := by
            simp [step, stepChars, charsOut, hstk, hx, hb, hdec, hut]
          rw [hok] at hstep
          simp only [POut.ok.injEq] at hstep
          exact ⟨pt, c2, hstep.symm⟩

/-- Witness for C8 at concrete inputs: a protected Value open switches the
variant, and an empty protected character-data event keeps it Protected. -/
theorem c8_value_variant_fixed_at_open_witness :
    step trivDec
      ⟨["String", "Entry"], [.keyValue "" (.Unprotected ""), .entry {}],
       Group.default, none, ()⟩
      (.startElement "Value" [("Protected", "True")]) =
      .ok ⟨["Value", "String", "Entry"],
           [.keyValue ""
              (if protAttrTrue [("Protected", "True")] then .Protected []
               else .Unprotected ""), .entry {}],
           Group.default, none, ()⟩
    ∧ ∃ b2 c2,
        (⟨["Value", "String", "Entry"],
          [.keyValue "" (.Protected []), .entry {}],
          Group.default, none, ()⟩ : PState Unit) =
          ⟨["Value", "String", "Entry"],
           [.keyValue "" (.Protected b2), .entry {}],
           Group.default, none, c2⟩ :=
  ⟨c8_value_variant_fixed_at_open.1 Unit trivDec
     ⟨["String", "Entry"], [.keyValue "" (.Unprotected ""), .entry {}],
      Group.default, none, ()⟩
     [("Protected", "True")] "" (.Unprotected "") [.entry {}] rfl,
   c8_value_variant_fixed_at_open.2 Unit trivDec
     ⟨["Value", "String", "Entry"],
      [.keyValue "" (.Protected []), .entry {}], Group.default, none, ()⟩
     ⟨["Value", "String", "Entry"],
      [.keyValue "" (.Protected []), .entry {}], Group.default, none, ()⟩
     "" [] [.entry {}] "" rfl rfl rfl⟩

/-- C9: character data inside an IconID element, with an Icon(IconID) node
on top of the builder stack, stores exactly the unsigned integer parsed from
the text (a `u8` parse in the source), and stores 0 whenever the text does
not parse. -/
theorem c9_iconid_text_parsed :
    (∀ (σ : Type) (dec : DecryptFn σ) (s : PState σ) (n0 : Nat)
      (rest : List PNode) (c : String),
      s.xmlStack.head? = some "IconID" →
      s.parsedStack = .icon (.IconID n0) :: rest →
      step dec s (.characters c) =
        .ok { s with parsedStack :=
                .icon (.IconID ((parseU8 c).getD 0)) :: rest })
    ∧ (∀ (c : String) (k : Nat), parseU8 c = some k → (parseU8 c).getD 0 = k)
    ∧ (∀ c : String, parseU8 c = none → (parseU8 c).getD 0 = 0) := by
  refine ⟨?_, ?_, ?_⟩
  · intro σ dec s n0 rest c hx hstk
    simp [step, stepChars, charsOut, hx, hstk]
  · intro c k h
    simp [h]
  · intro c h
    simp [h]

/-- Witness for C9: the text "5" stores icon id 5; the unparsable text "x"
stores 0. -/
theorem c9_iconid_text_parsed_witness :
    step trivDec
      ⟨["IconID", "Entry"], [.icon (.IconID 0), .entry {}],
       Group.default, none, ()⟩ (.characters "5") =
      .ok ⟨["IconID", "Entry"],
           [.icon (.IconID ((parseU8 "5").getD 0)), .entry {}],
           Group.default, none, ()⟩
    ∧ (parseU8 "5").getD 0 = 5
    ∧ (parseU8 "x").getD 0 = 0 :=
  ⟨c9_iconid_text_parsed.1 Unit trivDec
     ⟨["IconID", "Entry"], [.icon (.IconID 0), .entry {}],
      Group.default, none, ()⟩ 0 [.entry {}] "5" rfl rfl,
   c9_iconid_text_parsed.2.1 "5" 5 rfl,
   c9_iconid_text_parsed.2.2 "x" rfl⟩

end KeepassXml

namespace KeepassXml

theorem closeNode_root (n : PNode) (rest : List PNode) (root : Group)
    (meta : Option Metadata) (out : List PNode × Group × Option Metadata)
    (hc : closeNode n rest root meta = .ok out) :
    out.2.1 = root ∨ ∃ g, n = .group g ∧ rest = [] ∧ out.2.1 = g := by
  cases n <;> rcases rest with _ | ⟨hd, tl⟩ <;> try cases hd
  all_goals simp only [closeNode] at hc
  all_goals try split at hc
  all_goals
    first
    | (injection hc with h; subst h; exact Or.inl rfl)
    | (injection hc with h; subst h; exact Or.inr ⟨_, rfl, rfl, rfl⟩)
    | simp at hc

/-- C10: a parse in which no Group element closes with an empty builder
stack still returns Ok with a default-initialized root group (the empty
document is such a parse), and when several Groups close with an empty
builder stack the last one in document order becomes the returned root; the
third conjunct characterizes this: a successful step changes the root-group
slot only when a recognized element closes while the builder stack holds
exactly one finished Group. -/
theorem c10_default_and_last_root :
    (parse_xml_block trivDec () [] = .ok (none, Group.default))
    ∧ (∀ n1 n2 : String,
        parse_xml_block trivDec ()
          [.startElement "X" [], .startElement "Group" [],
           .startElement "Name" [], .characters n1, .endElement "Name",
           .endElement "Group", .startElement "Group" [],
           .startElement "Name" [], .characters n2, .endElement "Name",
           .endElement "Group", .endElement "X"] =
          .ok (none, .mk n2 [] [] false (.IconID 0)))
    ∧ (∀ (σ : Type) (dec : DecryptFn σ) (s s2 : PState σ) (e : XmlEvent),
        step dec s e = .ok s2 →
        s2.rootGroup = s.rootGroup
        ∨ ∃ name g, e = .endElement name
            ∧ recognizedNames.contains name = true
            ∧ s.parsedStack = [.group g] ∧ s2.rootGroup = g) := by
  refine ⟨rfl, fun n1 n2 => rfl, ?_⟩
  intro σ dec s s2 e hstep
  cases e with
  | startElement nm attrs =>
    left
    simp only [step, POut.ok.injEq] at hstep
    subst hstep
    rfl
  | characters c =>
    left
    simp only [step, stepChars] at hstep
    rcases hco : charsOut dec s.xmlStack.head? s.parsedStack s.cipher c with
      ⟨stk, c2⟩ | e0 | _ <;> rw [hco] at hstep
    · simp only [POut.ok.injEq] at hstep
      subst hstep
      rfl
    · simp at hstep
    · simp at hstep
  | other =>
    left
    simp only [step, POut.ok.injEq] at hstep
    subst hstep
    rfl
  | endElement nm =>
    simp only [step, stepEnd] at hstep
    rcases hc : recognizedNames.contains nm with _ | _ <;>
      simp only [hc, if_true, if_false, Bool.false_eq_true, if_neg,
        reduceIte] at hstep
    · left
      simp only [POut.ok.injEq] at hstep
      subst hstep
      rfl
    · rcases hps : s.parsedStack with _ | ⟨finished, rest⟩ <;>
        simp only [hps] at hstep
      · simp at hstep
      · rcases hcn : closeNode finished rest s.rootGroup s.metadata with
          ⟨stk, root, meta⟩ | e0 | _ <;> simp only [hcn] at hstep
        · simp only [POut.ok.injEq] at hstep
          subst hstep
          rcases closeNode_root finished rest s.rootGroup s.metadata _ hcn
            with h | ⟨g, hn, hrest, hroot⟩
          · left
            exact h
          · right
            refine ⟨nm, g, rfl, hc, ?_, hroot⟩
            rw [hn, hrest]
        · simp at hstep
        · simp at hstep

/-- Witness for C10: the third conjunct at a concrete step — closing a
Group while it is the only stack node installs it as the root. -/
theorem c10_default_and_last_root_witness :
    parse_xml_block trivDec () [] = .ok (none, Group.default)
    ∧ ((⟨[], [], .mk "g" [] [] false (.IconID 0), none, ()⟩ :
          PState Unit).rootGroup =
        (⟨["Group"], [.group (.mk "g" [] [] false (.IconID 0))],
          Group.default, none, ()⟩ : PState Unit).rootGroup
      ∨ ∃ name g, (XmlEvent.endElement "Group") = .endElement name
          ∧ recognizedNames.contains name = true
          ∧ (⟨["Group"], [.group (.mk "g" [] [] false (.IconID 0))],
              Group.default, none, ()⟩ : PState Unit).parsedStack = [.group g]
          ∧ (⟨[], [], .mk "g" [] [] false (.IconID 0), none, ()⟩ :
              PState Unit).rootGroup = g) :=
  ⟨c10_default_and_last_root.1,
   c10_default_and_last_root.2.2 Unit trivDec
     ⟨["Group"], [.group (.mk "g" [] [] false (.IconID 0))],
      Group.default, none, ()⟩
     ⟨[], [], .mk "g" [] [] false (.IconID 0), none, ()⟩
     (.endElement "Group") rfl⟩

end KeepassXml

namespace KeepassXml

theorem foldl_pushChild (ts : List GTree) : ∀ (n : String)
    (ch : List DBNode) (tm : List (String × Int)) (ex : Bool) (ic : Icon),
    List.foldl (fun (a : Group) (t : GTree) => a.pushChild (mirrorNode t))
        (Group.mk n ch tm ex ic) ts =
      Group.mk n (ch ++ mirrorList ts) tm ex ic := by
  induction ts with
  | nil =>
    intro n ch tm ex ic
    simp [mirrorList]
  | cons t ts2 ih =>
    intro n ch tm ex ic
    rw [List.foldl_cons,
      show (Group.mk n ch tm ex ic).pushChild (mirrorNode t) =
        Group.mk n (ch ++ [mirrorNode t]) tm ex ic from rfl, ih]
    simp [mirrorList]

mutual

theorem runTree {σ : Type} (dec : DecryptFn σ) (t : GTree) (s : PState σ)
    (g : Group) (rest : List PNode)
    (hstk : s.parsedStack = .group g :: rest) :
    runEvents dec s (treeEvents t) =
      .ok { s with
              parsedStack := .group (g.pushChild (mirrorNode t)) :: rest } := by
  obtain ⟨xs, ps, rg, md, ci⟩ := s
  simp only at hstk
  subst hstk
  cases t with
  | entry =>
    simp only [treeEvents, mirrorNode]
    rfl
  | group cs =>
    simp only [treeEvents, mirrorNode, List.cons_append]
    have hlist := runTreeList dec cs
      ⟨"Group" :: xs, .group Group.default :: .group g :: rest, rg, md, ci⟩
      Group.default (.group g :: rest) rfl
    have hstart :
        runEvents dec ⟨xs, .group g :: rest, rg, md, ci⟩
          (.startElement "Group" [] ::
            (treeEventsList cs ++ [.endElement "Group"])) =
        runEvents dec
          ⟨"Group" :: xs, .group Group.default :: .group g :: rest,
           rg, md, ci⟩ (treeEventsList cs ++ [.endElement "Group"]) := rfl
    rw [hstart, runEvents_append]
    simp only [hlist]
    have hend :
        runEvents dec
          ⟨"Group" :: xs,
           .group (cs.foldl (fun a t => a.pushChild (mirrorNode t))
             Group.default) :: .group g :: rest, rg, md, ci⟩
          [.endElement "Group"] =
        .ok ⟨xs,
             .group (g.pushChild (.group
               (cs.foldl (fun a t => a.pushChild (mirrorNode t))
                 Group.default))) :: rest, rg, md, ci⟩ := rfl
    rw [hend]
    rw [show (cs.foldl (fun a t => a.pushChild (mirrorNode t))
          Group.default) = Group.mk "" (mirrorList cs) [] false (.IconID 0) by
        rw [show Group.default = Group.mk "" [] [] false (.IconID 0) from rfl,
          foldl_pushChild]
        simp]

theorem runTreeList {σ : Type} (dec : DecryptFn σ) (ts : List GTree)
    (s : PState σ) (g : Group) (rest : List PNode)
    (hstk : s.parsedStack = .group g :: rest) :
    runEvents dec s (treeEventsList ts) =
      .ok { s with
              parsedStack :=
                .group (ts.foldl (fun a t => a.pushChild (mirrorNode t)) g)
                  :: rest } := by
  cases ts with
  | nil =>
    simp only [treeEventsList, runEvents, List.foldl_nil]
    rw [← hstk]
  | cons t ts2 =>
    simp only [treeEventsList, List.foldl_cons]
    rw [runEvents_append]
    have h1 := runTree dec t s g rest hstk
    simp only [h1]
    have h2 := runTreeList dec ts2
      { s with parsedStack := .group (g.pushChild (mirrorNode t)) :: rest }
      (g.pushChild (mirrorNode t)) rest rfl
    rw [h2]

end

end KeepassXml

namespace KeepassXml

/-- C5: for any properly nested tree of Group and Entry elements, the parse
output mirrors the input exactly — every Group's children list holds its
finished child Groups and Entries in document order (each appended at close
time), and the output tree has the same shape, hence the same nesting
depth, as the input elements. -/
theorem c5_nested_tree_mirrored {σ : Type} (dec : DecryptFn σ) (c0 : σ)
    (cs : List GTree) :
    parse_xml_block dec c0 (treeEvents (.group cs)) =
      .ok (none, .mk "" (mirrorList cs) [] false (.IconID 0)) := by
  unfold parse_xml_block
  simp only [treeEvents, List.cons_append]
  have hstart :
      runEvents dec (initState c0)
        (.startElement "Group" [] ::
          (treeEventsList cs ++ [.endElement "Group"])) =
      runEvents dec ⟨["Group"], [.group Group.default], Group.default,
        none, c0⟩ (treeEventsList cs ++ [.endElement "Group"]) := rfl
  rw [hstart, runEvents_append]
  have hlist := runTreeList dec cs
    ⟨["Group"], [.group Group.default], Group.default, none, c0⟩
    Group.default [] rfl
  simp only [hlist]
  have hend :
      runEvents dec
        ⟨["Group"],
         [.group (cs.foldl (fun a t => a.pushChild (mirrorNode t))
           Group.default)], Group.default, none, c0⟩
        [.endElement "Group"] =
      .ok ⟨[], [],
           cs.foldl (fun a t => a.pushChild (mirrorNode t)) Group.default,
           none, c0⟩ := rfl
  rw [hend]
  rw [show (cs.foldl (fun a t => a.pushChild (mirrorNode t))
        Group.default) = Group.mk "" (mirrorList cs) [] false (.IconID 0) by
      rw [show Group.default = Group.mk "" [] [] false (.IconID 0) from rfl,
        foldl_pushChild]
      simp]

end KeepassXml

namespace KeepassXml

theorem lookupSL_insertSL {α : Type} (a k : String) (v : α)
    (m : List (String × α)) :
    lookupSL k (insertSL a v m) = if a = k then some v else lookupSL k m := by
  induction m with
  | nil =>
    by_cases h : a = k
    · simp [insertSL, lookupSL, List.find?, h]
    · have hb : (a == k) = false := beq_eq_false_iff_ne.mpr h
      simp [insertSL, lookupSL, List.find?, h, hb]
  | cons p ps ih =>
    rcases p with ⟨q, w⟩
    by_cases hqa : q = a
    · subst hqa
      have h1 : insertSL q v ((q, w) :: ps) = insertSL q v ps := by
        simp [insertSL, List.filter_cons]
      rw [h1, ih]
      by_cases hqk : q = k
      · simp [hqk]
      · rw [if_neg hqk, if_neg hqk,
          show lookupSL k ((q, w) :: ps) = lookupSL k ps from by
            simp [lookupSL, List.find?_cons_of_neg, hqk]]
    · have h1 : insertSL a v ((q, w) :: ps) = (q, w) :: insertSL a v ps := by
        simp [insertSL, List.filter_cons, hqa]
      rw [h1]
      by_cases hqk : q = k
      · subst hqk
        have h2 : ∀ X : List (String × α), lookupSL q ((q, w) :: X) = some w := by
          intro X
          simp [lookupSL, List.find?_cons_of_pos]
        rw [h2, if_neg (fun h => hqa h.symm), h2]
      · have h3 : ∀ X : List (String × α),
            lookupSL k ((q, w) :: X) = lookupSL k X := by
          intro X
          simp [lookupSL, List.find?_cons_of_neg, hqk]
        rw [h3, ih, h3]

theorem lookupSL_foldl_insert {α β : Type} (f : String × β → α)
    (kvs : List (String × β)) : ∀ (m : List (String × α)) (k : String),
    lookupSL k
        (kvs.foldl (fun acc p => insertSL p.1 (f p) acc) m) =
      match (kvs.filter (fun p => p.1 == k)).getLast? with
      | some p => some (f p)
      | none => lookupSL k m := by
  induction kvs with
  | nil => intro m k; simp
  | cons p ps ih =>
    intro m k
    rw [List.foldl_cons, ih]
    by_cases hpk : p.1 = k
    · rw [List.filter_cons_of_pos (by simp [hpk])]
      rcases hfil : ps.filter (fun p2 => p2.1 == k) with _ | ⟨q, qs⟩
      · simp [hfil, lookupSL_insertSL, hpk]
      · rw [hfil, List.getLast?_cons_cons,
          List.getLast?_eq_getLast (q :: qs) (by simp)]
    · rw [List.filter_cons_of_neg (by simp [hpk])]
      rcases hlast : (ps.filter (fun p2 => p2.1 == k)).getLast? with _ | q
      · simp only [hlast]
        rw [lookupSL_insertSL, if_neg hpk]
      · simp only [hlast]

theorem runKvs {σ : Type} (dec : DecryptFn σ) (kvs : List (String × String)) :
    ∀ (s : PState σ) (e : Entry) (rest : List PNode),
    s.parsedStack = .entry e :: rest →
    runEvents dec s (kvsEvents kvs) =
      .ok { s with
              parsedStack :=
                .entry { e with
                  fields := kvs.foldl
                    (fun m p => insertSL p.1 (Value.Unprotected p.2) m)
                    e.fields } :: rest } := by
  induction kvs with
  | nil =>
    intro s e rest hstk
    simp only [kvsEvents, runEvents, List.foldl_nil]
    rw [show ({ e with fields := e.fields } : Entry) = e from rfl, ← hstk]
  | cons p ps ih =>
    intro s e rest hstk
    obtain ⟨xs, sps, rg, md, ci⟩ := s
    simp only at hstk
    subst hstk
    simp only [kvsEvents]
    rw [runEvents_append]
    have h1 : runEvents dec ⟨xs, .entry e :: rest, rg, md, ci⟩
        (kvEvents p.1 p.2) =
        .ok ⟨xs, .entry { e with
               fields := insertSL p.1 (.Unprotected p.2) e.fields } :: rest,
             rg, md, ci⟩ := rfl
    simp only [h1]
    rw [ih _ _ _ rfl]
    rw [List.foldl_cons]

theorem runIcons {σ : Type} (dec : DecryptFn σ)
    (ics : List (String × String)) :
    ∀ (s : PState σ) (m : Metadata) (rest : List PNode),
    s.parsedStack = .metadata m :: rest →
    runEvents dec s (iconsEvents ics) =
      .ok { s with
              parsedStack :=
                .metadata { m with
                  custom_icons := ics.foldl
                    (fun acc p => insertSL p.1 p.2 acc)
                    m.custom_icons } :: rest } := by
  induction ics with
  | nil =>
    intro s m rest hstk
    simp only [iconsEvents, runEvents, List.foldl_nil]
    rw [show ({ m with custom_icons := m.custom_icons } : Metadata) = m
          from rfl, ← hstk]
  | cons p ps ih =>
    intro s m rest hstk
    obtain ⟨xs, sps, rg, md, ci⟩ := s
    simp only at hstk
    subst hstk
    simp only [iconsEvents]
    rw [runEvents_append]
    have h1 : runEvents dec ⟨xs, .metadata m :: rest, rg, md, ci⟩
        (iconEvents p.1 p.2) =
        .ok ⟨xs, .metadata { m with
               custom_icons := insertSL p.1 p.2 m.custom_icons } :: rest,
             rg, md, ci⟩ := rfl
    simp only [h1]
    rw [ih _ _ _ rfl]
    rw [List.foldl_cons]

end KeepassXml

namespace KeepassXml

/-- C7: within one Entry, several KeyValue children with the same key leave
only the value of the last one (in document order) in the field mapping;
likewise, within Metadata, several custom icons with the same UUID leave
only the last icon's data in the custom-icon mapping. -/
theorem c7_duplicates_last_write_wins :
    (∀ (kvs : List (String × String)) (k : String),
      parse_xml_block trivDec () (entryDocEvents kvs) =
        .ok (none,
          .mk "" [.entry { fields := fieldsOf kvs }] [] false (.IconID 0))
      ∧ lookupSL k (fieldsOf kvs) =
          ((kvs.filter (fun p => p.1 == k)).getLast?).map
            (fun p => Value.Unprotected p.2))
    ∧ (∀ (ics : List (String × String)) (u : String),
      parse_xml_block trivDec () (metaDocEvents ics) =
        .ok (some { custom_icons := iconsOf ics }, Group.default)
      ∧ lookupSL u (iconsOf ics) =
          ((ics.filter (fun p => p.1 == u)).getLast?).map
            (fun p => p.2)) := by
  constructor
  · intro kvs k
    constructor
    · have hrun : runEvents trivDec (initState ()) (entryDocEvents kvs) =
          .ok ⟨[], [],
               .mk "" [.entry { fields := fieldsOf kvs }] [] false
                 (.IconID 0), none, ()⟩ := by
        unfold entryDocEvents
        rw [runEvents_append, runEvents_append]
        have h1 : runEvents trivDec (initState ())
            [.startElement "X" [], .startElement "Group" [],
             .startElement "Entry" []] =
            .ok ⟨["Entry", "Group", "X"], [.entry {}, .group Group.default],
                 Group.default, none, ()⟩ := rfl
        simp only [h1]
        simp only [runKvs trivDec kvs
          ⟨["Entry", "Group", "X"], [.entry {}, .group Group.default],
           Group.default, none, ()⟩ {} [.group Group.default] rfl]
        have hend : runEvents trivDec
            ⟨["Entry", "Group", "X"],
             [.entry { fields := fieldsOf kvs }, .group Group.default],
             Group.default, none, ()⟩
            [.endElement "Entry", .endElement "Group", .endElement "X"] =
            .ok ⟨[], [],
                 .mk "" [.entry { fields := fieldsOf kvs }] [] false
                   (.IconID 0), none, ()⟩ := rfl
        exact hend
      unfold parse_xml_block
      rw [hrun]
    · have hl := lookupSL_foldl_insert
        (fun p => Value.Unprotected p.2) kvs [] k
      rcases hlast : (kvs.filter (fun p => p.1 == k)).getLast? with _ | q
      · rw [hlast] at hl
        rw [hlast]
        simpa [fieldsOf, lookupSL] using hl
      · rw [hlast] at hl
        rw [hlast]
        simpa [fieldsOf] using hl
  · intro ics u
    constructor
    · have hrun : runEvents trivDec (initState ()) (metaDocEvents ics) =
          .ok ⟨[], [], Group.default,
               some { custom_icons := iconsOf ics }, ()⟩ := by
        unfold metaDocEvents
        have h1 : runEvents trivDec (initState ())
            (.startElement "Meta" [] ::
              (iconsEvents ics ++ [.endElement "Meta"])) =
            runEvents trivDec
              ⟨["Meta"], [.metadata {}], Group.default, none, ()⟩
              (iconsEvents ics ++ [.endElement "Meta"]) := rfl
        rw [h1, runEvents_append]
        simp only [runIcons trivDec ics
          ⟨["Meta"], [.metadata {}], Group.default, none, ()⟩ {} [] rfl]
        have hend : runEvents trivDec
            ⟨["Meta"], [.metadata { custom_icons := iconsOf ics }],
             Group.default, none, ()⟩ [.endElement "Meta"] =
            .ok ⟨[], [], Group.default,
                 some { custom_icons := iconsOf ics }, ()⟩ := rfl
        exact hend
      unfold parse_xml_block
      rw [hrun]
    · have hl := lookupSL_foldl_insert
        (fun p : String × String => p.2) ics [] u
      rcases hlast : (ics.filter (fun p => p.1 == u)).getLast? with _ | q
      · rw [hlast] at hl
        rw [hlast]
        simpa [iconsOf, lookupSL] using hl
      · rw [hlast] at hl
        rw [hlast]
        simpa [iconsOf] using hl

end KeepassXml
